import Mathlib

/-!
# Verification of the ibees face-composition placement and refinement core

This file gives a shallow embedding of the coordinate-placement data model,
the adjustment resolvers, the refinement loops, the placement projection and
the compositor paste arithmetic of the ibees repository, and proves the
testable properties stated in its specification.

Sources embedded (translated statement by statement):
* `src/tools/dynamic_feedback_refiner.py` — `ADJUSTMENT_STEPS`,
  `apply_dynamic_adjustments`, the iteration loop of `dynamic_feedback_test`;
* `src/webapp/app.py` — the `ADJUSTMENT_STEPS` table and
  `apply_relative_adjustments` closure inside `run_iterative_refinement`,
  and the iteration loop itself;
* `src/face_composer/part_placement_config.py` — `_get_base_coordinates`
  and `calculate_part_position`;
* `src/face_composer/face_composer.py` — the layer-position arithmetic of
  `_create_single_layer_fixed`, `_create_layers_with_custom_positions`
  and `_blend_layer`;
* `src/face_composer/initial_position_generator.py` —
  `generate_initial_positions`.

Conventions: Python ints are `Int`; Python floats hold only exact decimal
constants in this code and are embedded as `ℚ`; Python dicts keyed by
category name are association lists `List (String × PartPlacement)`;
fallible code returns `Except`.
-/

namespace IBees

/-- A coordinate triple `(x, y, scale)`: canvas-pixel center coordinates and
a multiplicative scale, as stored per category in `current_positions`. -/
structure Triple where
  x : Int
  y : Int
  scale : ℚ
  deriving DecidableEq

/-- A category's placement: either a single `(x, y, scale)` tuple or a
`{'left': ..., 'right': ...}` dict of two triples, as in the Python models. -/
inductive PartPlacement where
  | single : Triple → PartPlacement
  | symmetric : Triple → Triple → PartPlacement
  deriving DecidableEq

/-- The coordinate model: the `current_positions` dict, category name to
placement.  A Python dict has no duplicate keys; theorems that need this
carry a `Nodup` hypothesis on the key list. -/
abbrev Model := List (String × PartPlacement)

/-- One category's entry in the `adjustments` dict returned by the external
model: the values read by `adj_info.get('position')`,
`adj_info.get('scale')` and `adj_info.get('symmetrical')`. -/
structure Adjustment where
  position : Option String := none
  scale : Option String := none
  symmetrical : Option String := none
  deriving DecidableEq

/-- Table `ADJUSTMENT_STEPS['position']` of `dynamic_feedback_refiner.py`
(lines 25-28): only the four vertical moves are present there. -/
def dynPositionSteps : List (String × (Int × Int)) :=
  [("up", (0, -5)), ("down", (0, 5)),
   ("up_slight", (0, -3)), ("down_slight", (0, 3))]

/-- Table `ADJUSTMENT_STEPS['position']` of `webapp/app.py` (and of
`tools/face_refiner.py`, which defines the same eight entries). -/
def fullPositionSteps : List (String × (Int × Int)) :=
  [("up", (0, -5)), ("down", (0, 5)), ("left", (-5, 0)), ("right", (5, 0)),
   ("up_slight", (0, -3)), ("down_slight", (0, 3)),
   ("left_slight", (-3, 0)), ("right_slight", (3, 0))]

/-- Table `ADJUSTMENT_STEPS['scale']`, identical in all three step tables. -/
def scaleSteps : List (String × ℚ) :=
  [("bigger", 0.05), ("smaller", -0.05),
   ("bigger_slight", 0.03), ("smaller_slight", -0.03)]

/-- Table `ADJUSTMENT_STEPS['symmetrical']` of `dynamic_feedback_refiner.py`:
`(left_dx, right_dx)` pairs. -/
def symmetricalSteps : List (String × (Int × Int)) :=
  [("closer", (-3, 3)), ("wider", (3, -3)),
   ("closer_big", (-5, 5)), ("wider_big", (5, -5))]

/-- Membership lookup in a step table, mirroring Python
`op in ADJUSTMENT_STEPS[kind]` followed by `ADJUSTMENT_STEPS[kind][op]`. -/
def findStep {α : Type} : List (String × α) → String → Option α
  | [], _ => none
  | (k, v) :: rest, s => if k = s then some v else findStep rest s

/-- Python `adj and adj in steps`: a missing (`None`) op never matches. -/
def lookupStep {α : Type} (steps : List (String × α)) : Option String → Option α
  | none => none
  | some s => findStep steps s

/-- Dict lookup `positions[category]` guarded by `category in positions`. -/
def findCat : Model → String → Option PartPlacement
  | [], _ => none
  | (c, p) :: rest, cat => if c = cat then some p else findCat rest cat

/-- Dict assignment `positions[category] = p` (the key is already present
whenever the resolvers call this, so assignment replaces). -/
def setCat (m : Model) (cat : String) (p : PartPlacement) : Model :=
  m.map (fun e => if e.1 = cat then (e.1, p) else e)

/-- The element-wise copy produced by
`json.loads(json.dumps(current_positions))`: a structurally fresh model
holding the same values (tuples reread as lists hold the same numbers). -/
def copyPlacement : PartPlacement → PartPlacement
  | .single t => .single ⟨t.x, t.y, t.scale⟩
  | .symmetric l r => .symmetric ⟨l.x, l.y, l.scale⟩ ⟨r.x, r.y, r.scale⟩

/-- Statement `new_positions = json.loads(json.dumps(current_positions))`. -/
def deepCopy (m : Model) : Model :=
  m.map (fun e => (e.1, copyPlacement e.2))

/-! ## The resolver of `dynamic_feedback_refiner.apply_dynamic_adjustments` -/

/-- The single-part branch of `apply_dynamic_adjustments` (lines 340-366):
position delta if the op is in the table, then scale delta with the
mouth cap at 0.4 and the floor at 0.1. -/
def dynSingleStep (cat : String) (t : Triple) (adj : Adjustment) : Triple :=
  let xy : Int × Int :=
    match lookupStep dynPositionSteps adj.position with
    | some (dx, dy) => (t.x + dx, t.y + dy)
    | none => (t.x, t.y)
  let scale : ℚ :=
    match lookupStep scaleSteps adj.scale with
    | some d =>
      let ns := t.scale + d
      if cat = "mouth" ∧ 0.4 < ns then 0.4
      else if ns < 0.1 then 0.1
      else ns
    | none => t.scale
  ⟨xy.1, xy.2, scale⟩

/-- The symmetric-part branch of `apply_dynamic_adjustments`
(lines 295-338), after the two safety `continue` checks: spacing delta if
the symmetrical op is in the table, else joint move if the position op is,
then scale delta clamped into `[0.1, 1.0]` on both members. -/
def dynSymmetricStep (l r : Triple) (adj : Adjustment) : Triple × Triple :=
  let lr : Triple × Triple :=
    match lookupStep symmetricalSteps adj.symmetrical with
    | some (ldx, rdx) => (⟨l.x + ldx, l.y, l.scale⟩, ⟨r.x + rdx, r.y, r.scale⟩)
    | none =>
      match lookupStep dynPositionSteps adj.position with
      | some (dx, dy) => (⟨l.x + dx, l.y + dy, l.scale⟩, ⟨r.x + dx, r.y + dy, r.scale⟩)
      | none => (l, r)
  match lookupStep scaleSteps adj.scale with
  | some d =>
    (⟨lr.1.x, lr.1.y, max 0.1 (min 1.0 (lr.1.scale + d))⟩,
     ⟨lr.2.x, lr.2.y, max 0.1 (min 1.0 (lr.2.scale + d))⟩)
  | none => lr

/-- One pass of the `for category, adj_info in adjustments.items()` body of
`apply_dynamic_adjustments`: skip absent categories, skip a `closer`-family
op at spacing ≤ 25 and a `wider`-family op at spacing ≥ 70 (the safety
`continue`s at lines 302-307, which drop the whole entry), otherwise write
the stepped placement back. -/
def applyDynCategory (m : Model) (cat : String) (adj : Adjustment) : Model :=
  match findCat m cat with
  | none => m
  | some (.single t) => setCat m cat (.single (dynSingleStep cat t adj))
  | some (.symmetric l r) =>
    let oldDistance : Int := |l.x - r.x|
    if (adj.symmetrical = some "closer" ∨ adj.symmetrical = some "closer_big")
        ∧ oldDistance ≤ 25 then m
    else if (adj.symmetrical = some "wider" ∨ adj.symmetrical = some "wider_big")
        ∧ 70 ≤ oldDistance then m
    else
      let lr := dynSymmetricStep l r adj
      setCat m cat (.symmetric lr.1 lr.2)

/-- Function `apply_dynamic_adjustments` with the two heap objects kept explicit:
the first component is the caller's `current_positions` object, the second
the fresh `new_positions` copy; every statement of the loop body writes
into `new_positions` only, so each fold step leaves the first component
untouched, exactly as in the source. -/
def applyDynState (m : Model) (adjs : List (String × Adjustment)) : Model × Model :=
  adjs.foldl (fun st e => (st.1, applyDynCategory st.2 e.1 e.2)) (m, deepCopy m)

/-- Call `apply_dynamic_adjustments(current_positions, adjustments)`: the value
of `new_positions` returned at line 370. -/
def apply_dynamic_adjustments (m : Model) (adjs : List (String × Adjustment)) : Model :=
  (applyDynState m adjs).2

/-! ## The resolver of `webapp/app.py  apply_relative_adjustments` -/

/-- The per-triple body of `apply_relative_adjustments` in `webapp/app.py`
(run for each side of a dict placement and once for a tuple placement):
position delta from the eight-entry table, scale clamped into `[0.1, 1.0]`. -/
def relStep (t : Triple) (adj : Adjustment) : Triple :=
  let xy : Int × Int :=
    match lookupStep fullPositionSteps adj.position with
    | some (dx, dy) => (t.x + dx, t.y + dy)
    | none => (t.x, t.y)
  let scale : ℚ :=
    match lookupStep scaleSteps adj.scale with
    | some d => max 0.1 (min 1.0 (t.scale + d))
    | none => t.scale
  ⟨xy.1, xy.2, scale⟩

/-- One pass of the category loop of `apply_relative_adjustments`:
skip absent categories, step both sides of a dict placement or the single
tuple, write back. -/
def applyRelCategory (m : Model) (cat : String) (adj : Adjustment) : Model :=
  match findCat m cat with
  | none => m
  | some (.single t) => setCat m cat (.single (relStep t adj))
  | some (.symmetric l r) => setCat m cat (.symmetric (relStep l adj) (relStep r adj))

/-- Function `apply_relative_adjustments` with the two heap objects kept explicit,
as in `applyDynState`. -/
def applyRelState (m : Model) (adjs : List (String × Adjustment)) : Model × Model :=
  adjs.foldl (fun st e => (st.1, applyRelCategory st.2 e.1 e.2)) (m, deepCopy m)

/-- Call `apply_relative_adjustments(positions, adjustments)` of `webapp/app.py`
(the closure in `run_iterative_refinement`; `tools/iterative_face_refiner.py`
defines the same function over the eight-entry table). -/
def apply_relative_adjustments (m : Model) (adjs : List (String × Adjustment)) : Model :=
  (applyRelState m adjs).2

/-! ## The refinement loops -/

/-- The parsed JSON of one external-model response, as read by the loops:
`satisfied = adjustment_result.get('satisfied', False)`,
`adjustments = adjustment_result.get('adjustments', {})`, and — read only by
the dynamic loop — `stop_adjustment_needed` from `visual_analysis`
(default `False`). -/
structure ParsedResponse where
  satisfied : Bool
  adjustments : List (String × Adjustment)
  stopNeeded : Bool
  deriving DecidableEq

/-- The `for iteration in range(max_iterations)` loop of
`run_iterative_refinement` in `webapp/app.py`: each pass composes and saves
one render of the current model (counted here), obtains a parsed response,
returns the current model unchanged when `satisfied or not adjustments`,
and otherwise continues with `apply_relative_adjustments`.  `respond` is
the external model: render index and current model to parsed response.
Returns the final model and the number of renders produced. -/
def webappLoopGo (respond : Nat → Model → ParsedResponse) :
    Nat → Model → Nat → Model × Nat
  | 0, m, renders => (m, renders)
  | k + 1, m, renders =>
    let renders := renders + 1
    let resp := respond renders m
    if resp.satisfied || resp.adjustments.isEmpty then (m, renders)
    else webappLoopGo respond k (apply_relative_adjustments m resp.adjustments) renders

/-- Function `run_iterative_refinement` from its loop entry, with `max_iterations`
a parameter (the source fixes it at 5). -/
def run_iterative_refinement (respond : Nat → Model → ParsedResponse)
    (maxIterations : Nat) (m : Model) : Model × Nat :=
  webappLoopGo respond maxIterations m 0

/-- The iteration loop of `dynamic_feedback_test` in
`dynamic_feedback_refiner.py`: same shape, with the extra stop condition
`stop_needed` and `apply_dynamic_adjustments` as the resolver. -/
def dynamicLoopGo (respond : Nat → Model → ParsedResponse) :
    Nat → Model → Nat → Model × Nat
  | 0, m, renders => (m, renders)
  | k + 1, m, renders =>
    let renders := renders + 1
    let resp := respond renders m
    if resp.satisfied || resp.adjustments.isEmpty || resp.stopNeeded then (m, renders)
    else dynamicLoopGo respond k (apply_dynamic_adjustments m resp.adjustments) renders

/-- The loop of `dynamic_feedback_test`, from its loop entry. -/
def dynamic_feedback_loop (respond : Nat → Model → ParsedResponse)
    (maxIterations : Nat) (m : Model) : Model × Nat :=
  dynamicLoopGo respond maxIterations m 0

/-- The scripted external-model stub that always answers
`{adjustments: {}, satisfied: false}`. -/
def emptyAdjustmentsStub : Nat → Model → ParsedResponse :=
  fun _ _ => ⟨false, [], false⟩

/-! ## Placement projection (`part_placement_config.py`) -/

/-- One entry of the `base_positions` table of `_get_base_coordinates`:
either a plain triple or a left/right dict with an optional `single` key
(present for eye and eyebrow, absent for ear). -/
inductive BaseEntry where
  | plain : Triple → BaseEntry
  | sides : Triple → Triple → Option Triple → BaseEntry
  deriving DecidableEq

/-- The `base_positions` table (400×400 base canvas), lines 69-90 of
`part_placement_config.py`. -/
def basePositions : String → Option BaseEntry
  | "hair" => some (.plain ⟨200, 200, 1.0⟩)
  | "eye" => some (.sides ⟨225, 215, 0.2⟩ ⟨175, 215, 0.2⟩ (some ⟨200, 215, 0.2⟩))
  | "eyebrow" => some (.sides ⟨225, 185, 0.2⟩ ⟨175, 185, 0.2⟩ (some ⟨200, 185, 0.2⟩))
  | "nose" => some (.plain ⟨200, 230, 0.2⟩)
  | "mouth" => some (.plain ⟨200, 255, 0.25⟩)
  | "ear" => some (.sides ⟨250, 220, 0.28⟩ ⟨150, 220, 0.28⟩ none)
  | "outline" => some (.plain ⟨200, 200, 1.0⟩)
  | "acc" => some (.plain ⟨200, 180, 0.3⟩)
  | "beard" => some (.plain ⟨200, 300, 0.4⟩)
  | "glasses" => some (.plain ⟨200, 215, 0.5⟩)
  | _ => none

/-- Lookup `_get_base_coordinates(category, part_num, is_left_part, is_right_part)`
(`part_num` is unused by the source body): side selection for dict entries,
first dict value (the left triple) as fallback, and the documented default
`(200, 200, 0.3)` for unknown categories. -/
def get_base_coordinates (category : String) (isLeft isRight : Bool) : Triple :=
  match basePositions category with
  | some (.plain t) => t
  | some (.sides l r s) =>
    if isLeft then l
    else if isRight then r
    else match s with
         | some t => t
         | none => l
  | none => ⟨200, 200, 0.3⟩

/-- Projection `calculate_part_position`: base triple translated by
`canvas_center - BASE_CENTER` where `canvas_center = (w // 2, h // 2)`;
the scale is returned unchanged. -/
def calculate_part_position (category : String) (isLeft isRight : Bool)
    (w h : Nat) : Triple :=
  let base := get_base_coordinates category isLeft isRight
  let offX : Int := ((w / 2 : Nat) : Int) - 200
  let offY : Int := ((h / 2 : Nat) : Int) - 200
  ⟨base.x + offX, base.y + offY, base.scale⟩

/-! ## Compositor paste arithmetic (`face_composer.py`) -/

/-- Python `int(part_image.width * scale)`: truncation toward zero, which on the
nonnegative widths and scales of this pipeline is the floor. -/
def scaledDim (w : Nat) (s : ℚ) : Int := ⌊(w : ℚ) * s⌋

/-- The layer `position` stored by `_create_single_layer_fixed`
(lines 305-307): the centre already converted to a top-left corner,
`(final_x - scaled_width // 2, final_y - scaled_height // 2)`. -/
def fixed_layer_position (finalX finalY scaledW scaledH : Int) : Int × Int :=
  (finalX - scaledW / 2, finalY - scaledH / 2)

/-- The paste origin computed by `_blend_layer` (lines 373-375) from a
layer's stored `position` and the part image's dimensions: the stored
position is treated as a centre and converted to a top-left corner. -/
def blend_paste_origin (position : Int × Int) (partW partH : Int) : Int × Int :=
  (position.1 - partW / 2, position.2 - partH / 2)

/-- Paste origin on the custom-positions path: layers built by
`_create_layers_with_custom_positions` store `position = (x, y)` (the
centre), which `_blend_layer` then converts once. -/
def custom_paste_origin (x y partW partH : Int) : Int × Int :=
  blend_paste_origin (x, y) partW partH

/-- Paste origin on the fixed-placement path (`compose_face`): the layer
position from `_create_single_layer_fixed` is fed to the same
`_blend_layer` conversion. -/
def fixed_paste_origin (finalX finalY partW partH : Int) : Int × Int :=
  blend_paste_origin (fixed_layer_position finalX finalY partW partH) partW partH

/-! ## Initial placement (`initial_position_generator.py`) -/

/-- The default coordinate model written out twice in
`generate_initial_positions` (and used as the initial model of both
refinement loops). -/
def default_positions : Model :=
  [("hair", .single ⟨200, 200, 1.0⟩),
   ("eye", .symmetric ⟨225, 215, 0.2⟩ ⟨175, 215, 0.2⟩),
   ("eyebrow", .symmetric ⟨225, 185, 0.2⟩ ⟨175, 185, 0.2⟩),
   ("nose", .single ⟨200, 230, 0.2⟩),
   ("mouth", .single ⟨200, 255, 0.25⟩),
   ("ear", .symmetric ⟨250, 220, 0.28⟩ ⟨150, 220, 0.28⟩),
   ("outline", .single ⟨200, 200, 1.0⟩),
   ("acc", .single ⟨200, 180, 0.3⟩),
   ("beard", .single ⟨200, 300, 0.4⟩),
   ("glasses", .single ⟨200, 215, 0.5⟩)]

/-- Input to `generate_initial_positions`, abstracting the image file:
either `cv2.imread` returns `None` (unreadable) or an image in which a
face may or may not be detectable. -/
inductive InputImage where
  | unreadable
  | readable (faceDetectable : Bool)
  deriving DecidableEq

/-- Control flow of `generate_initial_positions(image_path, parts_dict)`.
If `cv2.imread` fails the function returns the default model (lines 14-28).
Otherwise execution reaches `if not landmarks:` at line 42 — but no
statement of the function (or of the module) ever assigns `landmarks`
(nor `detector`, used at line 74): no landmark detection is invoked, and
evaluating the name raises `NameError` for every readable image, whether
or not a face could have been detected. -/
def generate_initial_positions (img : InputImage) : Except String Model :=
  match img with
  | .unreadable => .ok default_positions
  | .readable _ => .error "NameError: name landmarks is not defined"

/-! ## Helper lemmas -/

/-- The JSON round-trip copy is value-equal to its source. -/
theorem deepCopy_eq (m : Model) : deepCopy m = m := by
  induction m with
  | nil => rfl
  | cons e rest ih =>
    cases e with
    | mk c p =>
      cases p <;> simp [deepCopy, copyPlacement] at ih ⊢ <;> exact ih

/-- A fold whose step only rewrites the second component leaves the first
component of the state untouched. -/
theorem foldl_pair_fst {α : Type} (f : Model → α → Model) (l : List α)
    (a b : Model) :
    (l.foldl (fun st e => (st.1, f st.2 e)) (a, b)).1 = a := by
  induction l generalizing b with
  | nil => rfl
  | cons e rest ih => exact ih (f b e)

/-- A one-entry adjustment batch reduces to one category pass. -/
theorem apply_dyn_one (m : Model) (cat : String) (adj : Adjustment) :
    apply_dynamic_adjustments m [(cat, adj)] = applyDynCategory m cat adj := by
  simp [apply_dynamic_adjustments, applyDynState, deepCopy_eq]

/-- A one-entry adjustment batch reduces to one category pass. -/
theorem apply_rel_one (m : Model) (cat : String) (adj : Adjustment) :
    apply_relative_adjustments m [(cat, adj)] = applyRelCategory m cat adj := by
  simp [apply_relative_adjustments, applyRelState, deepCopy_eq]

/-- Unfolding `setCat` one entry. -/
theorem setCat_cons (c : String) (q : PartPlacement) (rest : Model)
    (cat : String) (p : PartPlacement) :
    setCat ((c, q) :: rest) cat p
      = (if c = cat then (c, p) else (c, q)) :: setCat rest cat p := rfl

/-- Writing to a key that is not present changes nothing. -/
theorem setCat_not_mem (m : Model) (cat : String) (p : PartPlacement)
    (h : cat ∉ m.map Prod.fst) : setCat m cat p = m := by
  induction m with
  | nil => rfl
  | cons e rest ih =>
    obtain ⟨c, q⟩ := e
    have h1 : ¬c = cat := fun hc => h (by simp [hc])
    have h2 : cat ∉ rest.map Prod.fst := fun hc => h (by simp [hc])
    rw [setCat_cons, if_neg h1, ih h2]

/-- Writing a key's current value back is the identity on a model with
distinct keys (every Python dict). -/
theorem setCat_self (m : Model) (cat : String) (p : PartPlacement)
    (hfind : findCat m cat = some p) (hnd : (m.map Prod.fst).Nodup) :
    setCat m cat p = m := by
  induction m with
  | nil => simp [findCat] at hfind
  | cons e rest ih =>
    obtain ⟨c, q⟩ := e
    simp only [List.map_cons, List.nodup_cons] at hnd
    by_cases hc : c = cat
    · subst hc
      have hq : q = p := by simpa [findCat] using hfind
      subst hq
      rw [setCat_cons, if_pos rfl, setCat_not_mem rest c q hnd.1]
    · have hfind2 : findCat rest cat = some p := by
        simpa [findCat, hc] using hfind
      rw [setCat_cons, if_neg hc, ih hfind2 hnd.2]

/-! ## Claim theorems -/

/-- C9: applying an empty adjustment map is the identity — for every
coordinate model, both resolvers return a model value-equal to the input
(the loop body never runs; the result is the fresh copy of the input). -/
theorem c9_empty_batch_is_identity (m : Model) :
    apply_dynamic_adjustments m [] = m ∧ apply_relative_adjustments m [] = m := by
  constructor <;>
    simp [apply_dynamic_adjustments, apply_relative_adjustments,
      applyDynState, applyRelState, deepCopy_eq]

/-- C3: the resolvers never mutate their input model.  With the two heap
objects of the source kept explicit — the caller's model and the fresh
`json` round-trip copy every statement writes into — the input component
of the state is the same model after the whole batch, for any model and
any adjustments; and the copy the result is built from is value-equal to
the input while being structurally fresh. -/
theorem c3_resolver_pure (m : Model) (adjs : List (String × Adjustment)) :
    (applyDynState m adjs).1 = m ∧ (applyRelState m adjs).1 = m ∧ deepCopy m = m :=
  ⟨foldl_pair_fst
      (fun mm (e : String × Adjustment) => applyDynCategory mm e.1 e.2)
      adjs m (deepCopy m),
   foldl_pair_fst
      (fun mm (e : String × Adjustment) => applyRelCategory mm e.1 e.2)
      adjs m (deepCopy m),
   deepCopy_eq m⟩

/-- C2: with a stub external model that always answers
`{adjustments: {}, satisfied: false}`, both refinement loops terminate
after exactly one iteration — one render is produced and the starting
coordinate model is returned unmodified — for every starting model and
every positive iteration budget. -/
theorem c2_empty_adjustments_one_iteration (m : Model) (maxIterations : Nat)
    (h : 0 < maxIterations) :
    run_iterative_refinement emptyAdjustmentsStub maxIterations m = (m, 1) ∧
    dynamic_feedback_loop emptyAdjustmentsStub maxIterations m = (m, 1) := by
  obtain ⟨k, rfl⟩ := Nat.exists_eq_add_of_lt h
  constructor <;> rfl

/-- Witness for C2 at the source's own budget of 5 iterations and its
default starting model. -/
theorem c2_empty_adjustments_one_iteration_witness :
    run_iterative_refinement emptyAdjustmentsStub 5 default_positions
        = (default_positions, 1) ∧
    dynamic_feedback_loop emptyAdjustmentsStub 5 default_positions
        = (default_positions, 1) :=
  c2_empty_adjustments_one_iteration default_positions 5 (by decide)

/-- C5 (code evaluated at the failing input): on the custom-positions path
the paste origin is `(x - w/2, y - h/2)` as the claim states, but on the
fixed-placement path of `compose_face` the centre is converted to a
top-left corner twice — `_create_single_layer_fixed` already stores
`(x - w//2, y - h//2)` and `_blend_layer` subtracts the half-sizes again —
so a 100×100 scaled part placed at centre `(200, 230)` is pasted at
`(100, 130)` instead of `(150, 180)`. -/
theorem c5_fixed_path_pastes_off_centre :
    (∀ x y w h : Int, custom_paste_origin x y w h = (x - w / 2, y - h / 2)) ∧
    fixed_paste_origin 200 230 100 100 = (100, 130) ∧
    ((100 : Int), (130 : Int)) ≠ ((200 : Int) - 100 / 2, (230 : Int) - 100 / 2) :=
  ⟨fun _ _ _ _ => rfl, rfl, by decide⟩

/-- C6 (code evaluated at the failing input): for a readable input image —
face or no face — `generate_initial_positions` raises `NameError` at
`if not landmarks:` instead of returning the default coordinate model; the
fallback only works on the unreadable-image branch. -/
theorem c6_no_face_raises_name_error :
    generate_initial_positions (InputImage.readable false)
        = .error "NameError: name landmarks is not defined" ∧
    generate_initial_positions (InputImage.readable false)
        ≠ .ok default_positions ∧
    generate_initial_positions InputImage.unreadable = .ok default_positions :=
  ⟨rfl, fun h => Except.noConfusion h, rfl⟩

/-- C7: for every category in the base table (and either side selector)
and every canvas size, the projected placement is the base triple
translated by `(w/2 - 200, h/2 - 200)` with the scale component returned
unchanged; in particular the nose projects onto an 800×800 canvas at
`(400, 430, 0.2)`. -/
theorem c7_projection_is_translation (category : String) (isLeft isRight : Bool)
    (w h : Nat) (e : BaseEntry) (hcat : basePositions category = some e) :
    (calculate_part_position category isLeft isRight w h).x
        = (get_base_coordinates category isLeft isRight).x + (((w / 2 : Nat) : Int) - 200) ∧
    (calculate_part_position category isLeft isRight w h).y
        = (get_base_coordinates category isLeft isRight).y + (((h / 2 : Nat) : Int) - 200) ∧
    (calculate_part_position category isLeft isRight w h).scale
        = (get_base_coordinates category isLeft isRight).scale ∧
    calculate_part_position "nose" false false 800 800 = ⟨400, 430, 0.2⟩ :=
  ⟨rfl, rfl, rfl, rfl⟩

/-- Witness for C7 at the nose entry of the base table. -/
theorem c7_projection_is_translation_witness :
    basePositions "nose" = some (BaseEntry.plain ⟨200, 230, 0.2⟩) ∧
    calculate_part_position "nose" false false 800 800 = ⟨400, 430, 0.2⟩ :=
  ⟨rfl, (c7_projection_is_translation "nose" false false 800 800
          (BaseEntry.plain ⟨200, 230, 0.2⟩) rfl).2.2.2⟩

/-- The adjustment `{'symmetrical': 'closer'}`. -/
def closerAdj : Adjustment := { symmetrical := some "closer" }

/-- C1 (counterexample): a symmetric eye placement with spacing 28.
Since `28 - 6 = 22` is below the 25px minimum, the claim says the
operation is rejected and the spacing stays 28; the code only rejects at
spacing ≤ 25, so it applies the deltas and the spacing becomes 22. -/
theorem c1_closer_spacing_28_counterexample :
    apply_dynamic_adjustments
        [("eye", .symmetric ⟨203, 215, 0.2⟩ ⟨175, 215, 0.2⟩)] [("eye", closerAdj)]
      = [("eye", .symmetric ⟨200, 215, 0.2⟩ ⟨178, 215, 0.2⟩)] ∧
    [("eye", PartPlacement.symmetric ⟨200, 215, (0.2 : ℚ)⟩ ⟨178, 215, (0.2 : ℚ)⟩)]
      ≠ [("eye", PartPlacement.symmetric ⟨203, 215, (0.2 : ℚ)⟩ ⟨175, 215, (0.2 : ℚ)⟩)] ∧
    ((203 : Int) - 175) - 6 < 25 :=
  ⟨rfl, fun h => by simpa using h, by decide⟩

/-- C1 (amended): `closer` on a `Symmetric` placement moves the left
member 3px toward the right member and the right member 3px toward the
left one exactly when the current spacing exceeds 25px — not when the
resulting spacing `d - 6` would still be at least 25px — so the spacing
drops from `d` to `d - 6` (possibly as low as 20px); at spacing ≤ 25px the
whole entry is skipped and the placement is unchanged.  y and scale are
untouched; the eye scenario 50px → 44px of the spec holds. -/
theorem c1_closer_applies_above_25 (lx ly rx ry : Int) (ls rs : ℚ) :
    (25 < lx - rx →
      apply_dynamic_adjustments
          [("eye", .symmetric ⟨lx, ly, ls⟩ ⟨rx, ry, rs⟩)] [("eye", closerAdj)]
        = [("eye", .symmetric ⟨lx - 3, ly, ls⟩ ⟨rx + 3, ry, rs⟩)]) ∧
    (|lx - rx| ≤ 25 →
      apply_dynamic_adjustments
          [("eye", .symmetric ⟨lx, ly, ls⟩ ⟨rx, ry, rs⟩)] [("eye", closerAdj)]
        = [("eye", .symmetric ⟨lx, ly, ls⟩ ⟨rx, ry, rs⟩)]) ∧
    (lx - 3) - (rx + 3) = (lx - rx) - 6 := by
  refine ⟨?_, ?_, by ring⟩
  · intro h
    rw [apply_dyn_one]
    have habs : |lx - rx| = lx - rx := abs_of_pos (by omega)
    have hdist : ¬(|lx - rx| ≤ 25) := by
      rw [habs]
      omega
    simp only [applyDynCategory, findCat]
    simp [closerAdj, hdist, dynSymmetricStep, lookupStep, findStep,
      symmetricalSteps, setCat] <;> omega
  · intro h
    rw [apply_dyn_one]
    have hc : (closerAdj.symmetrical = some "closer"
        ∨ closerAdj.symmetrical = some "closer_big") ∧ |lx - rx| ≤ 25 :=
      ⟨Or.inl rfl, h⟩
    simp only [applyDynCategory, findCat]
    simp [hc]

/-- Witness for C1 at the spec's eye scenario: spacing 50 exceeds 25, the
deltas apply, and the result is `left=(222,215,0.2)`, `right=(178,215,0.2)`. -/
theorem c1_closer_applies_above_25_witness :
    (25 : Int) < 225 - 175 ∧
    apply_dynamic_adjustments
        [("eye", .symmetric ⟨225, 215, 0.2⟩ ⟨175, 215, 0.2⟩)] [("eye", closerAdj)]
      = [("eye", .symmetric ⟨222, 215, 0.2⟩ ⟨178, 215, 0.2⟩)] :=
  ⟨by decide, by
    have h := (c1_closer_applies_above_25 225 215 175 215 0.2 0.2).1 (by decide)
    simpa using h⟩

/-- The adjustment `{'position': 'left'}`. -/
def moveLeftAdj : Adjustment := { position := some "left" }

/-- C4 (counterexample): the move op `left` is not in the position table
of `dynamic_feedback_refiner.py` — that table holds only the four vertical
moves — so resolving `{'position': 'left'}` there leaves the nose
placement unchanged instead of translating it by `(-5, 0)`. -/
theorem c4_left_missing_from_dynamic_table_counterexample :
    findStep dynPositionSteps "left" = none ∧
    apply_dynamic_adjustments [("nose", .single ⟨200, 230, 0.2⟩)] [("nose", moveLeftAdj)]
      = [("nose", .single ⟨200, 230, 0.2⟩)] ∧
    [("nose", PartPlacement.single ⟨200, 230, (0.2 : ℚ)⟩)]
      ≠ [("nose", PartPlacement.single ⟨195, 230, (0.2 : ℚ)⟩)] :=
  ⟨rfl, rfl, fun h => by simpa using h⟩

/-- C4 (amended): in the eight-entry step tables of `webapp/app.py` and
`tools/face_refiner.py` every one of the eight move ops is bound to its
fixed delta — 5px for the normal ops, 3px for the slight ones — and
resolving such an op translates a single placement's centre, and both
members of a symmetric placement, by exactly that delta, leaving scales
unchanged.  The four-entry table of `dynamic_feedback_refiner.py` contains
only the vertical ops, so the horizontal ops are no-ops there. -/
theorem c4_full_table_moves (cat op : String) (dx dy : Int)
    (x y lx ly rx ry : Int) (s ls rs : ℚ)
    (hop : findStep fullPositionSteps op = some (dx, dy)) :
    apply_relative_adjustments [(cat, .single ⟨x, y, s⟩)] [(cat, { position := some op })]
      = [(cat, .single ⟨x + dx, y + dy, s⟩)] ∧
    apply_relative_adjustments
        [(cat, .symmetric ⟨lx, ly, ls⟩ ⟨rx, ry, rs⟩)] [(cat, { position := some op })]
      = [(cat, .symmetric ⟨lx + dx, ly + dy, ls⟩ ⟨rx + dx, ry + dy, rs⟩)] ∧
    (findStep fullPositionSteps "up" = some (0, -5) ∧
     findStep fullPositionSteps "down" = some (0, 5) ∧
     findStep fullPositionSteps "left" = some (-5, 0) ∧
     findStep fullPositionSteps "right" = some (5, 0) ∧
     findStep fullPositionSteps "up_slight" = some (0, -3) ∧
     findStep fullPositionSteps "down_slight" = some (0, 3) ∧
     findStep fullPositionSteps "left_slight" = some (-3, 0) ∧
     findStep fullPositionSteps "right_slight" = some (3, 0)) := by
  refine ⟨?_, ?_, rfl, rfl, rfl, rfl, rfl, rfl, rfl, rfl⟩ <;>
  · rw [apply_rel_one]
    simp only [applyRelCategory, findCat, if_pos rfl]
    simp [relStep, lookupStep, hop, setCat]

/-- Witness for C4 at the op `left` on a single nose placement and a
symmetric eye placement. -/
theorem c4_full_table_moves_witness :
    findStep fullPositionSteps "left" = some (-5, 0) ∧
    apply_relative_adjustments [("nose", .single ⟨200, 230, 0.2⟩)]
        [("nose", { position := some "left" })]
      = [("nose", .single ⟨195, 230, 0.2⟩)] :=
  ⟨rfl, by
    have h := (c4_full_table_moves "nose" "left" (-5) 0
        200 230 0 0 0 0 0.2 0 0 rfl).1
    simpa using h⟩

/-- Unfolding `findCat` one entry. -/
theorem findCat_cons (c : String) (q : PartPlacement) (rest : Model)
    (cat : String) :
    findCat ((c, q) :: rest) cat = if c = cat then some q else findCat rest cat := rfl

/-- Looking up a key right after writing it returns the written value
(the key was present before the write, as in every resolver call). -/
theorem findCat_setCat (m : Model) (cat : String) (p q : PartPlacement)
    (h : findCat m cat = some p) : findCat (setCat m cat q) cat = some q := by
  induction m with
  | nil => simp [findCat] at h
  | cons e rest ih =>
    obtain ⟨c, q'⟩ := e
    by_cases hc : c = cat
    · rw [setCat_cons, if_pos hc, findCat_cons, if_pos hc]
    · rw [findCat_cons, if_neg hc] at h
      rw [setCat_cons, if_neg hc, findCat_cons, if_neg hc]
      exact ih h

/-- C10: for an adjustment whose position, scale and symmetrical op names
all fall outside the respective step tables (for instance a hallucinated
op like `sideways`), both resolvers leave the whole model unchanged and
return normally — op names are membership-checked against the tables
before any delta is applied. -/
theorem c10_unknown_ops_noop (m : Model) (cat : String) (adj : Adjustment)
    (hnd : (m.map Prod.fst).Nodup)
    (hpd : lookupStep dynPositionSteps adj.position = none)
    (hpf : lookupStep fullPositionSteps adj.position = none)
    (hs : lookupStep scaleSteps adj.scale = none)
    (hsym : lookupStep symmetricalSteps adj.symmetrical = none) :
    apply_dynamic_adjustments m [(cat, adj)] = m ∧
    apply_relative_adjustments m [(cat, adj)] = m := by
  have hnot : ∀ op : String, findStep symmetricalSteps op ≠ none →
      adj.symmetrical ≠ some op := by
    intro op hop he
    rw [he] at hsym
    exact hop hsym
  rw [apply_dyn_one, apply_rel_one]
  constructor
  · cases hf : findCat m cat with
    | none => simp [applyDynCategory, hf]
    | some p =>
      cases p with
      | single t =>
        have hstep : dynSingleStep cat t adj = t := by
          simp [dynSingleStep, hpd, hs]
        simp only [applyDynCategory, hf, hstep]
        exact setCat_self m cat (.single t) hf hnd
      | symmetric l r =>
        have hc1 : ¬((adj.symmetrical = some "closer"
            ∨ adj.symmetrical = some "closer_big") ∧ |l.x - r.x| ≤ 25) := by
          rintro ⟨hor | hor, -⟩
          · exact hnot "closer" (by decide) hor
          · exact hnot "closer_big" (by decide) hor
        have hc2 : ¬((adj.symmetrical = some "wider"
            ∨ adj.symmetrical = some "wider_big") ∧ 70 ≤ |l.x - r.x|) := by
          rintro ⟨hor | hor, -⟩
          · exact hnot "wider" (by decide) hor
          · exact hnot "wider_big" (by decide) hor
        have hstep : dynSymmetricStep l r adj = (l, r) := by
          simp [dynSymmetricStep, hsym, hpd, hs]
        simp only [applyDynCategory, hf]
        rw [if_neg hc1, if_neg hc2, hstep]
        exact setCat_self m cat (.symmetric l r) hf hnd
  · cases hf : findCat m cat with
    | none => simp [applyRelCategory, hf]
    | some p =>
      have hstep : ∀ t, relStep t adj = t := by
        intro t
        simp [relStep, hpf, hs]
      cases p with
      | single t =>
        simp only [applyRelCategory, hf, hstep]
        exact setCat_self m cat (.single t) hf hnd
      | symmetric l r =>
        simp only [applyRelCategory, hf, hstep]
        exact setCat_self m cat (.symmetric l r) hf hnd

/-- Witness for C10: the op `sideways` in all three fields, on the default
model. -/
theorem c10_unknown_ops_noop_witness :
    apply_dynamic_adjustments default_positions
        [("eye", ⟨some "sideways", some "sideways", some "sideways"⟩)]
      = default_positions ∧
    apply_relative_adjustments default_positions
        [("eye", ⟨some "sideways", some "sideways", some "sideways"⟩)]
      = default_positions :=
  c10_unknown_ops_noop default_positions "eye"
    ⟨some "sideways", some "sideways", some "sideways"⟩
    (by decide) rfl rfl rfl rfl

/-- The adjustment `{'scale': 'smaller'}`. -/
def smallerAdj : Adjustment := { scale := some "smaller" }

/-- The scale components of one category's placement. -/
def scalesOf (m : Model) (cat : String) : List ℚ :=
  match findCat m cat with
  | none => []
  | some (.single t) => [t.scale]
  | some (.symmetric l r) => [l.scale, r.scale]

/-- Every scale component of `cat` is at least the documented 0.1 floor. -/
def ScaleFloorOK (m : Model) (cat : String) : Prop :=
  ∀ s ∈ scalesOf m cat, (0.1 : ℚ) ≤ s

/-- Iterating `n` rounds of `{cat: {'scale': 'smaller'}}` through the dynamic
resolver. -/
def dynSmallerIter (cat : String) (n : Nat) (m : Model) : Model :=
  (fun mm => apply_dynamic_adjustments mm [(cat, smallerAdj)])^[n] m

/-- Iterating `n` rounds of `{cat: {'scale': 'smaller'}}` through the webapp
resolver. -/
def relSmallerIter (cat : String) (n : Nat) (m : Model) : Model :=
  (fun mm => apply_relative_adjustments mm [(cat, smallerAdj)])^[n] m

/-- One `smaller` round through the dynamic resolver leaves every scale of
the touched category at or above 0.1, whatever the starting model. -/
theorem dyn_smaller_floor (m : Model) (cat : String) :
    ScaleFloorOK (apply_dynamic_adjustments m [(cat, smallerAdj)]) cat := by
  rw [apply_dyn_one]
  cases hf : findCat m cat with
  | none =>
    intro s hs
    simp [applyDynCategory, hf, scalesOf] at hs
  | some p =>
    cases p with
    | single t =>
      have hres : applyDynCategory m cat smallerAdj
          = setCat m cat (.single (dynSingleStep cat t smallerAdj)) := by
        simp [applyDynCategory, hf]
      rw [hres]
      intro s hs
      simp only [scalesOf, findCat_setCat m cat _ _ hf, List.mem_singleton] at hs
      subst hs
      have hfs : findStep scaleSteps "smaller" = some (-0.05 : ℚ) := rfl
      simp only [dynSingleStep, smallerAdj, lookupStep, hfs]
      split_ifs with h1 h2
      · norm_num
      · exact le_refl _
      · exact not_lt.mp h2
    | symmetric l r =>
      have hskip1 : ¬((smallerAdj.symmetrical = some "closer"
          ∨ smallerAdj.symmetrical = some "closer_big") ∧ |l.x - r.x| ≤ 25) := by
        rintro ⟨hor | hor, -⟩ <;> exact Option.noConfusion hor
      have hskip2 : ¬((smallerAdj.symmetrical = some "wider"
          ∨ smallerAdj.symmetrical = some "wider_big") ∧ 70 ≤ |l.x - r.x|) := by
        rintro ⟨hor | hor, -⟩ <;> exact Option.noConfusion hor
      have hres : applyDynCategory m cat smallerAdj
          = setCat m cat (.symmetric
              ⟨l.x, l.y, max 0.1 (min 1.0 (l.scale + -0.05))⟩
              ⟨r.x, r.y, max 0.1 (min 1.0 (r.scale + -0.05))⟩) := by
        simp only [applyDynCategory, hf]
        rw [if_neg hskip1, if_neg hskip2]
        simp [dynSymmetricStep, smallerAdj, lookupStep, findStep,
          symmetricalSteps, dynPositionSteps, scaleSteps]
      rw [hres]
      intro s hs
      simp only [scalesOf, findCat_setCat m cat _ _ hf, List.mem_cons,
        List.mem_singleton, List.not_mem_nil, or_false] at hs
      rcases hs with hs | hs <;> subst hs <;> exact le_max_left _ _

/-- One `smaller` round through the webapp resolver leaves every scale of
the touched category at or above 0.1, whatever the starting model. -/
theorem rel_smaller_floor (m : Model) (cat : String) :
    ScaleFloorOK (apply_relative_adjustments m [(cat, smallerAdj)]) cat := by
  rw [apply_rel_one]
  have hstep : ∀ t : Triple, relStep t smallerAdj
      = ⟨t.x, t.y, max 0.1 (min 1.0 (t.scale + -0.05))⟩ := by
    intro t
    simp [relStep, smallerAdj, lookupStep, findStep, fullPositionSteps, scaleSteps]
  cases hf : findCat m cat with
  | none =>
    intro s hs
    simp [applyRelCategory, hf, scalesOf] at hs
  | some p =>
    cases p with
    | single t =>
      simp only [applyRelCategory, hf, hstep]
      intro s hs
      simp only [scalesOf, findCat_setCat m cat _ _ hf, List.mem_singleton] at hs
      subst hs
      exact le_max_left _ _
    | symmetric l r =>
      simp only [applyRelCategory, hf, hstep]
      intro s hs
      simp only [scalesOf, findCat_setCat m cat _ _ hf, List.mem_cons,
        List.mem_singleton, List.not_mem_nil, or_false] at hs
      rcases hs with hs | hs <;> subst hs <;> exact le_max_left _ _

/-- C8: applying the scale op `smaller` any positive number of times never
drives a scale below the documented 0.1 floor — after each application
every scale component of the adjusted category is at least 0.1, in both
resolvers, for every starting placement. -/
theorem c8_smaller_never_below_floor (m : Model) (cat : String) (n : Nat)
    (h : 1 ≤ n) :
    ScaleFloorOK (dynSmallerIter cat n m) cat ∧
    ScaleFloorOK (relSmallerIter cat n m) cat := by
  obtain ⟨k, rfl⟩ : ∃ k, n = k + 1 := ⟨n - 1, by omega⟩
  constructor
  · rw [dynSmallerIter, Function.iterate_succ_apply']
    exact dyn_smaller_floor _ cat
  · rw [relSmallerIter, Function.iterate_succ_apply']
    exact rel_smaller_floor _ cat

/-- Witness for C8: three `smaller` rounds on the default mouth placement
(scale 0.25, which crosses the floor on the third round). -/
theorem c8_smaller_never_below_floor_witness :
    1 ≤ 3 ∧ ScaleFloorOK (dynSmallerIter "mouth" 3 default_positions) "mouth" ∧
    ScaleFloorOK (relSmallerIter "mouth" 3 default_positions) "mouth" :=
  ⟨by decide,
   (c8_smaller_never_below_floor default_positions "mouth" 3 (by decide)).1,
   (c8_smaller_never_below_floor default_positions "mouth" 3 (by decide)).2⟩

end IBees
